import Mathlib

/-!
Verification of the LlamaIndexTS provider-adapter modules:
the context-aware agent mixin, the Gemini provider adapter
(session, session store, LLM class), and the Azure Cosmos vCore
index-store factories. Each definition is a shallow embedding of
the corresponding TypeScript source; external SDK behaviour
(vendor clients, retrievers, UUID generation, environment
variables) is passed in as explicit parameters.
-/

namespace LlamaTS

/-! ### Context-aware agent (withContextAwareness)

A chat message is a role/content pair; the chat history is a list with
the newest messages at the back. -/

structure ChatMsg where
  role : String
  content : String
deriving DecidableEq, Repr

/-- The mutation performed by `injectContext` on the message found by
`this.chatHistory.find((msg) => msg.role === "system")`: the first
message whose role is "system" has its content replaced by
`` `${context}\n\n${systemMessage.content}` ``; all other messages are
left untouched. -/
def setFirstSystem (context : String) : List ChatMsg → List ChatMsg
  | [] => []
  | m :: rest =>
    if m.role = "system" then
      { m with content := context ++ "\n\n" ++ m.content } :: rest
    else
      m :: setFirstSystem context rest

/-- Embedding of `ContextAwareAgent.injectContext`: if the chat history
contains a system message, mutate it in place via `setFirstSystem`;
otherwise `unshift` a fresh system message holding the context. -/
def injectContext (context : String) (history : List ChatMsg) : List ChatMsg :=
  if (history.find? (fun m => m.role = "system")).isSome then
    setFirstSystem context history
  else
    ⟨"system", context⟩ :: history

/-- Embedding of `ContextAwareAgent.retrieveContext`: the retriever
(`contextRetriever.retrieve` composed with `getContent` on each node) is
an explicit parameter producing the node contents, which are joined with
a single newline (`Array.prototype.join("\n")`). -/
def retrieveContext (retriever : String → List String) (query : String) : String :=
  String.intercalate "\n" (retriever query)

structure ChatEngineParams where
  message : String
  stream : Bool
deriving DecidableEq, Repr

/-- Embedding of `ContextAwareAgent.chat`: retrieve context for
`params.message`, inject it into the chat history, then delegate to the
wrapped agent's `chat` (both branches of the `stream` test call
`super.chat(params)` on the mutated history). Returns the delegated
result together with the chat history as mutated by `injectContext`. -/
def contextAwareChat {Resp : Type} (retriever : String → List String)
    (superChat : List ChatMsg → ChatEngineParams → Resp)
    (history : List ChatMsg) (params : ChatEngineParams) :
    Resp × List ChatMsg :=
  let context := retrieveContext retriever params.message
  let history' := injectContext context history
  (superChat history' params, history')

theorem setFirstSystem_of_no_system (context : String) (history : List ChatMsg)
    (h : ∀ m ∈ history, m.role ≠ "system") :
    setFirstSystem context history = history := by
  induction history with
  | nil => rfl
  | cons m rest ih =>
    have hm : m.role ≠ "system" := h m (List.mem_cons_self m rest)
    simp only [setFirstSystem, if_neg hm]
    rw [ih (fun x hx => h x (List.mem_cons_of_mem m hx))]

theorem setFirstSystem_split (context : String) (pre : List ChatMsg)
    (m : ChatMsg) (post : List ChatMsg)
    (hpre : ∀ x ∈ pre, x.role ≠ "system") (hm : m.role = "system") :
    setFirstSystem context (pre ++ m :: post) =
      pre ++ { m with content := context ++ "\n\n" ++ m.content } :: post := by
  induction pre with
  | nil => simp [setFirstSystem, hm]
  | cons x rest ih =>
    have hx : x.role ≠ "system" := hpre x (List.mem_cons_self x rest)
    simp only [List.cons_append, setFirstSystem, if_neg hx, List.cons.injEq, true_and]
    exact ih (fun y hy => hpre y (List.mem_cons_of_mem x hy))

/-- **C1**. Every call to `ContextAwareAgent.chat(params)` first retrieves
context for `params.message` and injects it into the chat history before
delegating to the wrapped agent's `chat`: if the history contains a
system message, the first such message's content becomes the retrieved
context, two newlines, then the previous content; otherwise a new
`{role: "system", content: context}` message is unshifted onto the front
of the history. -/
theorem contextAware_chat_injects_context {Resp : Type}
    (retriever : String → List String)
    (superChat : List ChatMsg → ChatEngineParams → Resp)
    (history : List ChatMsg) (params : ChatEngineParams) :
    (contextAwareChat retriever superChat history params =
      (superChat (injectContext (retrieveContext retriever params.message) history) params,
       injectContext (retrieveContext retriever params.message) history)) ∧
    ((∀ m ∈ history, m.role ≠ "system") →
      injectContext (retrieveContext retriever params.message) history =
        ⟨"system", retrieveContext retriever params.message⟩ :: history) ∧
    (∀ pre m post, history = pre ++ m :: post →
      (∀ x ∈ pre, x.role ≠ "system") → m.role = "system" →
      injectContext (retrieveContext retriever params.message) history =
        pre ++ { m with content :=
          retrieveContext retriever params.message ++ "\n\n" ++ m.content } :: post) := by
  refine ⟨rfl, ?_, ?_⟩
  · intro hno
    have hfind : (history.find? (fun m => m.role = "system")).isSome = false := by
      cases hf : history.find? (fun m => m.role = "system") with
      | none => rfl
      | some m =>
        exfalso
        have hmem := List.mem_of_find?_eq_some hf
        have hrole := List.find?_some hf
        exact hno m hmem (by simpa using hrole)
    simp [injectContext, hfind]
  · intro pre m post hsplit hpre hm
    subst hsplit
    have hfind : ((pre ++ m :: post).find? (fun x => x.role = "system")).isSome = true := by
      apply List.find?_isSome.mpr
      exact ⟨m, by simp, decide_eq_true hm⟩
    simp only [injectContext, hfind, if_pos rfl]
    exact setFirstSystem_split _ pre m post hpre hm

theorem contextAware_chat_injects_context_witness :
    injectContext
        (retrieveContext (fun _ => ["doc1", "doc2"]) "q")
        [⟨"user", "hi"⟩] =
      [⟨"system", "doc1\ndoc2"⟩, ⟨"user", "hi"⟩] := by
  have h := @contextAware_chat_injects_context Unit
    (fun _ => ["doc1", "doc2"]) (fun _ _ => ()) [⟨"user", "hi"⟩] ⟨"q", false⟩
  exact h.2.1 (by decide)

/-! ### Gemini session and session store (packages/providers/google/src/base.ts)

`GeminiSession` objects are identified by the order of their construction
(`Nat` ids); the vendor `GoogleGenerativeAI` client held inside the
session is not modelled. The `GOOGLE_API_KEY` environment variable is an
explicit `Option String` parameter. JavaScript truthiness of an optional
string (`!options.apiKey`) is `truthy`: `undefined` and `""` are falsy. -/

inductive GEMINI_BACKENDS where
  | GOOGLE
  | VERTEX
deriving DecidableEq, Repr

structure GeminiSessionOptions where
  backend : GEMINI_BACKENDS
  apiKey : Option String
deriving DecidableEq, Repr

def truthy : Option String → Bool
  | none => false
  | some s => s ≠ ""

abbrev GeminiSession := Nat

/-- Embedding of the `GeminiSession` constructor. `new` ids come from the
store's counter. The constructor first overwrites a falsy `options.apiKey`
with the environment value (this mutates the very options object the
caller later caches), then throws if the key is still falsy. On success
it returns the fresh session together with the options as mutated. -/
def mkGeminiSession (env : Option String) (options : GeminiSessionOptions)
    (fresh : GeminiSession) :
    Except String (GeminiSession × GeminiSessionOptions) :=
  let options := if truthy options.apiKey then options
                 else { options with apiKey := env }
  if truthy options.apiKey then
    .ok (fresh, options)
  else
    .error "Set Google API Key in GOOGLE_API_KEY env variable"

/-- Embedding of `GeminiSessionStore.getSessionId`. -/
def getSessionId (options : GeminiSessionOptions) : String :=
  if options.backend = .GOOGLE then options.apiKey.getD "" else ""

/-- Embedding of `GeminiSessionStore.sessionMatched`. -/
def sessionMatched (o1 o2 : GeminiSessionOptions) : Bool :=
  getSessionId o1 = getSessionId o2

structure SessionStoreState where
  sessions : List (GeminiSession × GeminiSessionOptions)
  nextId : Nat
deriving DecidableEq, Repr

/-- Embedding of `GeminiSessionStore.get`: look for a cached session with
matching session id; if found return it unchanged; otherwise throw
`"No Session"` for the VERTEX backend, and for the GOOGLE backend
construct a new `GeminiSession` and push it (with the options object as
mutated by the constructor) onto the session list. -/
def storeGet (env : Option String) (options : GeminiSessionOptions)
    (s : SessionStoreState) :
    Except String (GeminiSession × SessionStoreState) :=
  match s.sessions.find? (fun e => sessionMatched e.2 options) with
  | some e => .ok (e.1, s)
  | none =>
    if options.backend = .VERTEX then
      .error "No Session"
    else
      match mkGeminiSession env options s.nextId with
      | .error err => .error err
      | .ok (sess, options') =>
        .ok (sess, ⟨s.sessions ++ [(sess, options')], s.nextId + 1⟩)

/-- Store states reachable in the program: `sessions` is initialised to
`[]`, and the only code in the repository that modifies it is
`GeminiSessionStore.get`. -/
inductive Reachable : SessionStoreState → Prop where
  | init : Reachable ⟨[], 0⟩
  | step {env options s sess s'} : Reachable s →
      storeGet env options s = .ok (sess, s') → Reachable s'

theorem mkGeminiSession_ok {env : Option String} {options : GeminiSessionOptions}
    {fresh sess : GeminiSession} {options' : GeminiSessionOptions}
    (h : mkGeminiSession env options fresh = .ok (sess, options')) :
    sess = fresh ∧ options'.backend = options.backend ∧
      truthy options'.apiKey = true := by
  by_cases h1 : truthy options.apiKey = true
  · simp only [mkGeminiSession, h1, if_true] at h
    cases h
    exact ⟨rfl, rfl, h1⟩
  · simp only [mkGeminiSession, h1, Bool.false_eq_true, if_false] at h
    by_cases h2 : truthy ({ options with apiKey := env } :
        GeminiSessionOptions).apiKey = true
    · simp only [h2, if_true] at h
      cases h
      exact ⟨rfl, rfl, h2⟩
    · simp only [h2, Bool.false_eq_true, if_false] at h
      cases h

theorem storeGet_preserves_ids {env : Option String}
    {options : GeminiSessionOptions} {s : SessionStoreState}
    {sess : GeminiSession} {s' : SessionStoreState}
    (hinv : ∀ e ∈ s.sessions, getSessionId e.2 ≠ "")
    (h : storeGet env options s = .ok (sess, s')) :
    ∀ e ∈ s'.sessions, getSessionId e.2 ≠ "" := by
  unfold storeGet at h
  cases hf : s.sessions.find? (fun e => sessionMatched e.2 options) with
  | some e =>
    rw [hf] at h
    cases h
    exact hinv
  | none =>
    rw [hf] at h
    by_cases hb : options.backend = .VERTEX
    · simp [hb] at h
    · rw [if_neg hb] at h
      cases hmk : mkGeminiSession env options s.nextId with
      | error err => rw [hmk] at h; cases h
      | ok p =>
        rw [hmk] at h
        cases h
        obtain ⟨-, hback, htruthy⟩ := mkGeminiSession_ok hmk
        intro e he
        rcases List.mem_append.mp he with he | he
        · exact hinv e he
        · have : e = (p.1, p.2) := by simpa using he
          subst this
          have hg : p.2.backend = .GOOGLE := by
            rw [hback]
            cases hcb : options.backend with
            | GOOGLE => rfl
            | VERTEX => exact absurd hcb hb
          cases hk : p.2.apiKey with
          | none => rw [hk] at htruthy; simp [truthy] at htruthy
          | some k =>
            have hkne : k ≠ "" := by
              rw [hk] at htruthy
              simpa [truthy] using htruthy
            simp [getSessionId, hg, hk, hkne]

theorem reachable_ids_nonempty {s : SessionStoreState} (h : Reachable s) :
    ∀ e ∈ s.sessions, getSessionId e.2 ≠ "" := by
  induction h with
  | init => intro e he; cases he
  | step _ hget ih => exact storeGet_preserves_ids ih hget

/-- **C4**. For every options value with backend VERTEX, in every store
state the program can reach, `GeminiSessionStore.get(options)` throws
`"No Session"`: reachable caches contain only entries whose session id is
a non-empty API key, which never matches the VERTEX id `""`. -/
theorem vertex_get_always_throws {s : SessionStoreState} (h : Reachable s)
    (options : GeminiSessionOptions) (hb : options.backend = .VERTEX)
    (env : Option String) :
    storeGet env options s = .error "No Session" := by
  have hid : getSessionId options = "" := by
    simp [getSessionId, hb]
  have hfind : s.sessions.find? (fun e => sessionMatched e.2 options) = none := by
    apply List.find?_eq_none.mpr
    intro e he
    have hne := reachable_ids_nonempty h e he
    simp [sessionMatched, hid]
    exact hne
  simp [storeGet, hfind, hb]

theorem vertex_get_always_throws_witness :
    storeGet none ⟨.VERTEX, none⟩ ⟨[(0, ⟨.GOOGLE, some "k"⟩)], 1⟩ =
      .error "No Session" := by
  have hstep : storeGet none ⟨.GOOGLE, some "k"⟩ ⟨[], 0⟩ =
      .ok (0, ⟨[(0, ⟨.GOOGLE, some "k"⟩)], 1⟩) := by rfl
  exact vertex_get_always_throws (Reachable.step Reachable.init hstep)
    ⟨.VERTEX, none⟩ rfl none

/-- **C3**. Constructing a `GeminiSession` with `apiKey` absent while
`GOOGLE_API_KEY` is unset throws before any client call and produces no
session; if either the options or the environment supplies a (non-empty)
key, the constructor succeeds. -/
theorem geminiSession_constructor_key (env : Option String)
    (options : GeminiSessionOptions) (fresh : GeminiSession) :
    (options.apiKey = none → env = none →
      mkGeminiSession env options fresh =
        .error "Set Google API Key in GOOGLE_API_KEY env variable") ∧
    (truthy options.apiKey = true ∨ truthy env = true →
      ∃ options', mkGeminiSession env options fresh = .ok (fresh, options')) := by
  constructor
  · intro h1 h2
    simp [mkGeminiSession, h1, h2, truthy]
  · intro h
    by_cases h1 : truthy options.apiKey = true
    · exact ⟨options, by simp [mkGeminiSession, h1]⟩
    · have h2 : truthy env = true := by
        rcases h with h | h
        · exact absurd h h1
        · exact h
      refine ⟨{ options with apiKey := env }, ?_⟩
      simp only [mkGeminiSession, h1, Bool.false_eq_true, if_false]
      simp [h2]

theorem geminiSession_constructor_key_witness :
    mkGeminiSession none ⟨.GOOGLE, none⟩ 0 =
      .error "Set Google API Key in GOOGLE_API_KEY env variable" ∧
    ∃ o', mkGeminiSession none ⟨.GOOGLE, some "k"⟩ 0 = .ok (0, o') :=
  ⟨(geminiSession_constructor_key none ⟨.GOOGLE, none⟩ 0).1 rfl rfl,
   (geminiSession_constructor_key none ⟨.GOOGLE, some "k"⟩ 0).2
     (Or.inl (by decide))⟩

/-- **C2** (evaluation at the failing input). With `GOOGLE_API_KEY` set to
`"k"`, two consecutive `GeminiSessionStore.get` calls with identical
options `{backend: GOOGLE}` (apiKey missing, session id `""` both times)
starting from the empty store each construct a brand-new `GeminiSession`:
the constructor mutates the cached options' `apiKey` to `"k"`, so the
stored entry's session id no longer matches, the second call misses the
cache, returns session `1` instead of the first call's session `0`, and
pushes a second entry — the store fails to avoid the redundant
construction the claim (and the spec) promises. -/
theorem sessionStore_second_get_constructs_new_session :
    getSessionId ⟨.GOOGLE, none⟩ = getSessionId ⟨.GOOGLE, none⟩ ∧
    storeGet (some "k") ⟨.GOOGLE, none⟩ ⟨[], 0⟩ =
      .ok (0, ⟨[(0, ⟨.GOOGLE, some "k"⟩)], 1⟩) ∧
    storeGet (some "k") ⟨.GOOGLE, none⟩ ⟨[(0, ⟨.GOOGLE, some "k"⟩)], 1⟩ =
      .ok (1, ⟨[(0, ⟨.GOOGLE, some "k"⟩), (1, ⟨.GOOGLE, some "k"⟩)], 2⟩) := by
  exact ⟨rfl, rfl, rfl⟩

/-- **C9**. `getSessionId` maps every VERTEX options value and every
GOOGLE options value without an apiKey to `""`, so `sessionMatched` holds
between any two such values, and a `get` for one of them returns a
session the store has cached under the other. -/
theorem sessionId_empty_collision (o1 o2 : GeminiSessionOptions)
    (h1 : o1.backend = .VERTEX ∨ (o1.backend = .GOOGLE ∧ o1.apiKey = none))
    (h2 : o2.backend = .VERTEX ∨ (o2.backend = .GOOGLE ∧ o2.apiKey = none)) :
    getSessionId o1 = "" ∧ getSessionId o2 = "" ∧
    sessionMatched o1 o2 = true ∧
    ∀ (env : Option String) (sess : GeminiSession)
      (rest : List (GeminiSession × GeminiSessionOptions)) (nextId : Nat),
      storeGet env o2 ⟨(sess, o1) :: rest, nextId⟩ =
        .ok (sess, ⟨(sess, o1) :: rest, nextId⟩) := by
  have g1 : getSessionId o1 = "" := by
    rcases h1 with h | ⟨hb, hk⟩
    · simp [getSessionId, h]
    · simp [getSessionId, hb, hk]
  have g2 : getSessionId o2 = "" := by
    rcases h2 with h | ⟨hb, hk⟩
    · simp [getSessionId, h]
    · simp [getSessionId, hb, hk]
  have hm : sessionMatched o1 o2 = true := by
    simp [sessionMatched, g1, g2]
  refine ⟨g1, g2, hm, ?_⟩
  intro env sess rest nextId
  have hf : ((sess, o1) :: rest).find? (fun e => sessionMatched e.2 o2) =
      some (sess, o1) :=
    List.find?_cons_of_pos _ (by simpa using hm)
  simp [storeGet, hf]

theorem sessionId_empty_collision_witness :
    storeGet none ⟨.GOOGLE, none⟩ ⟨[(7, ⟨.VERTEX, none⟩)], 8⟩ =
      .ok (7, ⟨[(7, ⟨.VERTEX, none⟩)], 8⟩) :=
  (sessionId_empty_collision ⟨.VERTEX, none⟩ ⟨.GOOGLE, none⟩ (Or.inl rfl)
    (Or.inr ⟨rfl, rfl⟩)).2.2.2 none 7 [] 8

/-! ### Azure Cosmos vCore index store
(packages/providers/storage/azure/src/indexStore/AzureCosmosMongovCoreIndexStore.ts)

The `MongoClient` and `AzureCosmosVCoreKVStore` configuration is modelled
by the constructor arguments the factories pass; optional TypeScript
parameters are `Option` arguments, `none` standing for an omitted
argument filled by its declared default. -/

def DEFAULT_DATABASE : String := "IndexStoreDB"

def DEFAULT_COLLECTION : String := "IndexStoreCollection"

structure MongoClient where
  connectionString : String
  appName : Option String
deriving DecidableEq, Repr

structure AzureCosmosVCoreKVStore where
  mongoClient : MongoClient
  dbName : String
  collectionName : String
deriving DecidableEq, Repr

structure AzureCosmosVCoreIndexStore where
  azureCosmosVCoreKVStore : AzureCosmosVCoreKVStore
  nspace : String
deriving DecidableEq, Repr

/-- Embedding of `AzureCosmosVCoreIndexStore.fromMongoClient`. -/
def fromMongoClient (mongoClient : MongoClient)
    (dbNameArg collectionNameArg : Option String) :
    AzureCosmosVCoreIndexStore :=
  let dbName := dbNameArg.getD DEFAULT_DATABASE
  let collectionName := collectionNameArg.getD DEFAULT_COLLECTION
  { azureCosmosVCoreKVStore := ⟨mongoClient, dbName, collectionName⟩
    nspace := dbName ++ "." ++ collectionName }

/-- Embedding of `AzureCosmosVCoreIndexStore.fromConnectionString`: builds
a `MongoClient` on the connection string with appName `"LLAMAINDEX_JS"`
and otherwise configures the store identically. -/
def fromConnectionString (connectionString : String)
    (dbNameArg collectionNameArg : Option String) :
    AzureCosmosVCoreIndexStore :=
  let dbName := dbNameArg.getD DEFAULT_DATABASE
  let collectionName := collectionNameArg.getD DEFAULT_COLLECTION
  { azureCosmosVCoreKVStore :=
      ⟨⟨connectionString, some "LLAMAINDEX_JS"⟩, dbName, collectionName⟩
    nspace := dbName ++ "." ++ collectionName }

/-- **C5**. The two index-store factories agree: for every `dbName` and
`collectionName` argument (present or omitted), `fromConnectionString`
and `fromMongoClient` (on a client for the same connection string)
configure their key-value stores with the same database and collection
names, both set the namespace to `dbName`, a dot, then `collectionName`,
and both fall back to the defaults `"IndexStoreDB"` and
`"IndexStoreCollection"` when an argument is omitted. -/
theorem indexStore_factories_agree (cs : String) (client : MongoClient)
    (hclient : client.connectionString = cs)
    (dbNameArg collectionNameArg : Option String) :
    let s1 := fromConnectionString cs dbNameArg collectionNameArg
    let s2 := fromMongoClient client dbNameArg collectionNameArg
    s1.azureCosmosVCoreKVStore.dbName = s2.azureCosmosVCoreKVStore.dbName ∧
    s1.azureCosmosVCoreKVStore.collectionName =
      s2.azureCosmosVCoreKVStore.collectionName ∧
    s1.azureCosmosVCoreKVStore.mongoClient.connectionString =
      s2.azureCosmosVCoreKVStore.mongoClient.connectionString ∧
    s1.nspace = s1.azureCosmosVCoreKVStore.dbName ++ "." ++
      s1.azureCosmosVCoreKVStore.collectionName ∧
    s2.nspace = s1.nspace ∧
    (dbNameArg = none →
      s1.azureCosmosVCoreKVStore.dbName = "IndexStoreDB") ∧
    (collectionNameArg = none →
      s1.azureCosmosVCoreKVStore.collectionName = "IndexStoreCollection") := by
  refine ⟨rfl, rfl, hclient.symm, rfl, rfl, ?_, ?_⟩
  · intro h; subst h; rfl
  · intro h; subst h; rfl

theorem indexStore_factories_agree_witness :
    (fromConnectionString "mongodb://x" none none).nspace =
      (fromMongoClient ⟨"mongodb://x", none⟩ none none).nspace ∧
    (fromConnectionString "mongodb://x" none none).azureCosmosVCoreKVStore.dbName =
      "IndexStoreDB" := by
  have h := indexStore_factories_agree "mongodb://x" ⟨"mongodb://x", none⟩ rfl
    none none
  exact ⟨(h.2.2.2.2.1).symm, h.2.2.2.2.2.1 rfl⟩

/-! ### Gemini responses, tool-call extraction and chat

The vendor `EnhancedGenerateContentResponse` is modelled by the three
accessors the adapter uses: `text()`, `functionCalls()` (which yields
`undefined` when the response reports no function calls), and
`candidates`. A function call's `args` payload is treated as an opaque
string. `randomUUID()` is modelled by an explicit supply of ids,
consumed left to right; async iterables (`streamConverter`) are
modelled as lists. -/

structure FunctionCall where
  name : String
  args : String
deriving DecidableEq, Repr

structure GeminiCandidateContent where
  role : String
deriving DecidableEq, Repr

structure GeminiCandidate where
  content : GeminiCandidateContent
deriving DecidableEq, Repr

structure VendorResponse where
  text : String
  functionCalls : Option (List FunctionCall)
  candidates : List GeminiCandidate
deriving DecidableEq, Repr

structure ToolCall where
  name : String
  input : String
  id : String
deriving DecidableEq, Repr

/-- The element-wise translation
`call => ({name: call.name, input: call.args, id: randomUUID()})`,
with `randomUUID` drawn from the supply `uuid` at successive indices. -/
def toolsOfCalls (uuid : Nat → String) :
    Nat → List FunctionCall → List ToolCall
  | _, [] => []
  | i, call :: rest =>
    ⟨call.name, call.args, uuid i⟩ :: toolsOfCalls uuid (i + 1) rest

/-- Embedding of `GeminiSession.getResponseText`: returns
`response.text()`. -/
def getResponseText (response : VendorResponse) : String :=
  response.text

/-- Embedding of `GeminiSession.getToolsFromResponse`:
`response.functionCalls()?.map(...)`. -/
def getToolsFromResponse (uuid : Nat → String) (response : VendorResponse) :
    Option (List ToolCall) :=
  response.functionCalls.map (toolsOfCalls uuid 0)

/-- The message options `tools?.length ? { toolCall: tools } : {}`:
`none` is the empty options object `{}`, `some tools` the object carrying
the `toolCall` field. -/
def toolCallOptions (tools : Option (List ToolCall)) :
    Option (List ToolCall) :=
  match tools with
  | some (t :: ts) => some (t :: ts)
  | _ => none

structure StreamChunk where
  delta : String
  raw : VendorResponse
  options : Option (List ToolCall)
deriving DecidableEq, Repr

/-- Embedding of `GeminiSession.getChatStream`: `streamConverter` maps
each vendor response of the stream to a chunk; the uuid supply is indexed
per chunk. -/
def getChatStreamFrom (uuid : Nat → Nat → String) (i : Nat) :
    List VendorResponse → List StreamChunk
  | [] => []
  | response :: rest =>
    { delta := getResponseText response
      raw := response
      options := toolCallOptions (getToolsFromResponse (uuid i) response) }
      :: getChatStreamFrom uuid (i + 1) rest

def getChatStream (uuid : Nat → Nat → String)
    (stream : List VendorResponse) : List StreamChunk :=
  getChatStreamFrom uuid 0 stream

structure GeminiChatParams where
  stream : Bool
  message : String
deriving DecidableEq, Repr

structure ChatResponseMessage where
  content : String
  role : String
  options : Option (List ToolCall)
deriving DecidableEq, Repr

structure ChatNonStreamResponse where
  raw : VendorResponse
  message : ChatResponseMessage
deriving DecidableEq, Repr

/-- Embedding of `Gemini.nonStreamChat`. `sendMessage` abstracts the
vendor round trip (`getGenerativeModel`, `startChat` on
`createStartChatParams`, `sendMessage`), and `rolesFromGemini` the
`GeminiHelper.ROLES_FROM_GEMINI` table from the sibling utils module.
`response.candidates![0]!` on a response without candidates is a runtime
type error, modelled as `none`. -/
def nonStreamChat (uuid : Nat → String) (rolesFromGemini : String → String)
    (sendMessage : GeminiChatParams → VendorResponse)
    (params : GeminiChatParams) : Option ChatNonStreamResponse :=
  let response := sendMessage params
  match response.candidates.head? with
  | none => none
  | some topCandidate =>
    some { raw := response
           message :=
             { content := getResponseText response
               role := rolesFromGemini topCandidate.content.role
               options := toolCallOptions (getToolsFromResponse uuid response) } }

/-- Embedding of `Gemini.streamChat`: send on the vendor streaming API
(`sendMessageStream`, abstracted) and translate with `getChatStream`. -/
def streamChat (uuid : Nat → Nat → String)
    (sendMessageStream : GeminiChatParams → List VendorResponse)
    (params : GeminiChatParams) : List StreamChunk :=
  getChatStream uuid (sendMessageStream params)

inductive ChatResult where
  | streaming : List StreamChunk → ChatResult
  | nonStreaming : Option ChatNonStreamResponse → ChatResult
deriving DecidableEq, Repr

/-- Embedding of `Gemini.chat`: dispatch on `params.stream`. -/
def geminiChat (uuid : Nat → String) (uuidStream : Nat → Nat → String)
    (rolesFromGemini : String → String)
    (sendMessage : GeminiChatParams → VendorResponse)
    (sendMessageStream : GeminiChatParams → List VendorResponse)
    (params : GeminiChatParams) : ChatResult :=
  if params.stream then
    .streaming (streamChat uuidStream sendMessageStream params)
  else
    .nonStreaming (nonStreamChat uuid rolesFromGemini sendMessage params)

theorem toolsOfCalls_proj (uuid : Nat → String) (i : Nat)
    (calls : List FunctionCall) :
    (toolsOfCalls uuid i calls).map (fun t => (t.name, t.input)) =
      calls.map (fun c => (c.name, c.args)) := by
  induction calls generalizing i with
  | nil => rfl
  | cons c rest ih => simp [toolsOfCalls, ih]

/-- **C6**. `getResponseText` returns exactly the vendor response's
`text()`; `getToolsFromResponse` returns `undefined` when the response
reports no function calls, and otherwise a list of the
same length whose i-th entry's name and input are the i-th vendor
function call's name and args. -/
theorem session_response_extraction (uuid : Nat → String)
    (response : VendorResponse) :
    getResponseText response = response.text ∧
    (response.functionCalls = none →
      getToolsFromResponse uuid response = none) ∧
    (∀ calls, response.functionCalls = some calls →
      ∃ tools, getToolsFromResponse uuid response = some tools ∧
        tools.length = calls.length ∧
        tools.map (fun t => (t.name, t.input)) =
          calls.map (fun c => (c.name, c.args))) := by
  refine ⟨rfl, ?_, ?_⟩
  · intro h
    simp [getToolsFromResponse, h]
  · intro calls h
    refine ⟨toolsOfCalls uuid 0 calls, by simp [getToolsFromResponse, h], ?_,
      toolsOfCalls_proj uuid 0 calls⟩
    have hlen := congrArg List.length (toolsOfCalls_proj uuid 0 calls)
    simpa using hlen

theorem session_response_extraction_witness :
    getResponseText ⟨"hello", some [⟨"f", "a"⟩], []⟩ = "hello" ∧
    ∃ tools, getToolsFromResponse (fun _ => "u")
        ⟨"hello", some [⟨"f", "a"⟩], []⟩ = some tools ∧
      tools.length = 1 ∧
      tools.map (fun t => (t.name, t.input)) = [("f", "a")] := by
  have h := session_response_extraction (fun _ => "u")
    ⟨"hello", some [⟨"f", "a"⟩], []⟩
  obtain ⟨tools, h1, h2, h3⟩ := h.2.2 [⟨"f", "a"⟩] rfl
  exact ⟨h.1, tools, h1, h2, by simpa using h3⟩

theorem mem_getChatStreamFrom {uuid : Nat → Nat → String} {i : Nat}
    {stream : List VendorResponse} {chunk : StreamChunk}
    (h : chunk ∈ getChatStreamFrom uuid i stream) :
    ∃ j response, response ∈ stream ∧
      chunk = { delta := getResponseText response
                raw := response
                options := toolCallOptions
                  (getToolsFromResponse (uuid j) response) } := by
  induction stream generalizing i with
  | nil => cases h
  | cons r rest ih =>
    rcases List.mem_cons.mp h with h | h
    · exact ⟨i, r, List.mem_cons_self r rest, h⟩
    · obtain ⟨j, resp, hmem, heq⟩ := ih h
      exact ⟨j, resp, List.mem_cons_of_mem r hmem, heq⟩

/-- **C7**. `Gemini.chat` dispatches on the `stream` flag: with `stream`
set it returns the streaming translation (`streamChat`'s stream of deltas
built from the vendor stream, each delta being the extracted response
text of its chunk), without it the non-streaming translation
(`nonStreamChat`'s single response whose message content is the extracted
response text); `params.stream` being a boolean, no other code path
exists. -/
theorem gemini_chat_dispatch (uuid : Nat → String)
    (uuidStream : Nat → Nat → String) (rolesFromGemini : String → String)
    (sendMessage : GeminiChatParams → VendorResponse)
    (sendMessageStream : GeminiChatParams → List VendorResponse)
    (params : GeminiChatParams) :
    (params.stream = true →
      geminiChat uuid uuidStream rolesFromGemini sendMessage sendMessageStream
          params =
        .streaming (getChatStream uuidStream (sendMessageStream params))) ∧
    (params.stream = false →
      geminiChat uuid uuidStream rolesFromGemini sendMessage sendMessageStream
          params =
        .nonStreaming (nonStreamChat uuid rolesFromGemini sendMessage params)) ∧
    (∀ resp, nonStreamChat uuid rolesFromGemini sendMessage params = some resp →
      resp.message.content = getResponseText (sendMessage params)) ∧
    (∀ chunk ∈ getChatStream uuidStream (sendMessageStream params),
      chunk.delta = getResponseText chunk.raw ∧
      chunk.raw ∈ sendMessageStream params) := by
  refine ⟨?_, ?_, ?_, ?_⟩
  · intro h
    simp [geminiChat, h, streamChat]
  · intro h
    simp [geminiChat, h]
  · intro resp hresp
    simp only [nonStreamChat] at hresp
    cases hh : (sendMessage params).candidates.head? with
    | none => rw [hh] at hresp; cases hresp
    | some topCandidate =>
      rw [hh] at hresp
      cases hresp
      rfl
  · intro chunk hc
    obtain ⟨j, response, hmem, heq⟩ := mem_getChatStreamFrom hc
    subst heq
    exact ⟨rfl, hmem⟩

theorem gemini_chat_dispatch_witness :
    geminiChat (fun _ => "u") (fun _ _ => "u") (fun r => r)
        (fun _ => ⟨"t", none, [⟨⟨"model"⟩⟩]⟩) (fun _ => []) ⟨true, "m"⟩ =
      .streaming (getChatStream (fun _ _ => "u") []) ∧
    geminiChat (fun _ => "u") (fun _ _ => "u") (fun r => r)
        (fun _ => ⟨"t", none, [⟨⟨"model"⟩⟩]⟩) (fun _ => []) ⟨false, "m"⟩ =
      .nonStreaming (nonStreamChat (fun _ => "u") (fun r => r)
        (fun _ => ⟨"t", none, [⟨⟨"model"⟩⟩]⟩) ⟨false, "m"⟩) :=
  ⟨(gemini_chat_dispatch (fun _ => "u") (fun _ _ => "u") (fun r => r)
      (fun _ => ⟨"t", none, [⟨⟨"model"⟩⟩]⟩) (fun _ => []) ⟨true, "m"⟩).1 rfl,
   (gemini_chat_dispatch (fun _ => "u") (fun _ _ => "u") (fun r => r)
      (fun _ => ⟨"t", none, [⟨⟨"model"⟩⟩]⟩) (fun _ => []) ⟨false, "m"⟩).2.1 rfl⟩

theorem toolCallOptions_cases (u v : Nat → String) (r : VendorResponse) :
    ((∃ tools, toolCallOptions (getToolsFromResponse v r) = some tools) ↔
      (∃ tools, getToolsFromResponse u r = some tools ∧ tools ≠ [])) ∧
    ((getToolsFromResponse u r = none ∨ getToolsFromResponse u r = some []) →
      toolCallOptions (getToolsFromResponse v r) = none) := by
  cases hc : r.functionCalls with
  | none => simp [getToolsFromResponse, hc, toolCallOptions]
  | some calls =>
    cases calls with
    | nil => simp [getToolsFromResponse, hc, toolsOfCalls, toolCallOptions]
    | cons c cs =>
      simp [getToolsFromResponse, hc, toolsOfCalls, toolCallOptions]

/-- **C8**. In every chunk of `getChatStream` and in every `nonStreamChat`
result, the message options carry a `toolCall` field exactly when the
tool-call list extracted from the underlying vendor response is present
and non-empty; when that list is `undefined` or empty the options object
is `{}`. -/
theorem message_options_iff_tools (uuid : Nat → String)
    (uuidStream : Nat → Nat → String) (rolesFromGemini : String → String)
    (sendMessage : GeminiChatParams → VendorResponse)
    (params : GeminiChatParams) (stream : List VendorResponse) :
    (∀ chunk ∈ getChatStream uuidStream stream,
      ((∃ tools, chunk.options = some tools) ↔
        (∃ tools, getToolsFromResponse uuid chunk.raw = some tools ∧
          tools ≠ [])) ∧
      ((getToolsFromResponse uuid chunk.raw = none ∨
        getToolsFromResponse uuid chunk.raw = some []) →
        chunk.options = none)) ∧
    (∀ resp, nonStreamChat uuid rolesFromGemini sendMessage params = some resp →
      ((∃ tools, resp.message.options = some tools) ↔
        (∃ tools, getToolsFromResponse uuid (sendMessage params) = some tools ∧
          tools ≠ [])) ∧
      ((getToolsFromResponse uuid (sendMessage params) = none ∨
        getToolsFromResponse uuid (sendMessage params) = some []) →
        resp.message.options = none)) := by
  constructor
  · intro chunk hc
    obtain ⟨j, response, _, heq⟩ := mem_getChatStreamFrom hc
    subst heq
    exact toolCallOptions_cases uuid (uuidStream j) response
  · intro resp hresp
    simp only [nonStreamChat] at hresp
    cases hh : (sendMessage params).candidates.head? with
    | none => rw [hh] at hresp; cases hresp
    | some topCandidate =>
      rw [hh] at hresp
      cases hresp
      exact toolCallOptions_cases uuid uuid (sendMessage params)

theorem message_options_iff_tools_witness :
    ∃ tools,
      (StreamChunk.mk "t" ⟨"t", some [⟨"f", "a"⟩], []⟩
        (toolCallOptions (getToolsFromResponse (fun _ => "u")
          ⟨"t", some [⟨"f", "a"⟩], []⟩))).options = some tools := by
  have hmem : (StreamChunk.mk "t" ⟨"t", some [⟨"f", "a"⟩], []⟩
      (toolCallOptions (getToolsFromResponse (fun _ => "u")
        ⟨"t", some [⟨"f", "a"⟩], []⟩))) ∈
      getChatStream (fun _ _ => "u") [⟨"t", some [⟨"f", "a"⟩], []⟩] := by
    simp [getChatStream, getChatStreamFrom, getResponseText]
  have h := (message_options_iff_tools (fun _ => "u") (fun _ _ => "u")
      (fun r => r) (fun _ => ⟨"t", none, []⟩) ⟨false, "m"⟩
      [⟨"t", some [⟨"f", "a"⟩], []⟩]).1 _ hmem
  exact h.1.mpr ⟨[⟨"f", "a", "u"⟩],
    by simp [getToolsFromResponse, toolsOfCalls], by simp⟩

/-! ### Gemini models and tool-call support -/

inductive GEMINI_MODEL where
  | GEMINI_PRO
  | GEMINI_PRO_VISION
  | GEMINI_PRO_LATEST
  | GEMINI_PRO_FLASH_LATEST
  | GEMINI_PRO_1_5_PRO_PREVIEW
  | GEMINI_PRO_1_5_FLASH_PREVIEW
  | GEMINI_PRO_1_5
  | GEMINI_PRO_1_5_FLASH
  | GEMINI_PRO_1_5_LATEST
  | GEMINI_PRO_1_5_FLASH_LATEST
  | GEMINI_2_0_FLASH_EXPERIMENTAL
  | GEMINI_2_0_FLASH
  | GEMINI_2_0_FLASH_LITE_PREVIEW
  | GEMINI_2_0_FLASH_LITE
  | GEMINI_2_0_FLASH_THINKING_EXP
  | GEMINI_2_0_PRO_EXPERIMENTAL
deriving DecidableEq, Repr

structure GeminiModelInfo where
  contextWindow : Nat
deriving DecidableEq, Repr

/-- Embedding of `GEMINI_MODEL_INFO_MAP` (a record with an entry for
every model). -/
def GEMINI_MODEL_INFO_MAP : GEMINI_MODEL → GeminiModelInfo
  | .GEMINI_PRO => ⟨30720⟩
  | .GEMINI_PRO_VISION => ⟨12288⟩
  | .GEMINI_PRO_LATEST => ⟨1000000⟩
  | .GEMINI_PRO_FLASH_LATEST => ⟨1000000⟩
  | .GEMINI_PRO_1_5_PRO_PREVIEW => ⟨1000000⟩
  | .GEMINI_PRO_1_5_FLASH_PREVIEW => ⟨1000000⟩
  | .GEMINI_PRO_1_5 => ⟨2000000⟩
  | .GEMINI_PRO_1_5_FLASH => ⟨1000000⟩
  | .GEMINI_PRO_1_5_LATEST => ⟨2000000⟩
  | .GEMINI_PRO_1_5_FLASH_LATEST => ⟨1000000⟩
  | .GEMINI_2_0_FLASH_EXPERIMENTAL => ⟨1000000⟩
  | .GEMINI_2_0_FLASH => ⟨1000000⟩
  | .GEMINI_2_0_FLASH_LITE_PREVIEW => ⟨1000000⟩
  | .GEMINI_2_0_FLASH_LITE => ⟨1000000⟩
  | .GEMINI_2_0_FLASH_THINKING_EXP => ⟨32768⟩
  | .GEMINI_2_0_PRO_EXPERIMENTAL => ⟨2000000⟩

def SUPPORT_TOOL_CALL_MODELS : List GEMINI_MODEL :=
  [.GEMINI_PRO, .GEMINI_PRO_VISION, .GEMINI_PRO_1_5_PRO_PREVIEW,
   .GEMINI_PRO_1_5_FLASH_PREVIEW, .GEMINI_PRO_1_5, .GEMINI_PRO_1_5_FLASH,
   .GEMINI_PRO_LATEST, .GEMINI_PRO_FLASH_LATEST, .GEMINI_PRO_1_5_LATEST,
   .GEMINI_PRO_1_5_FLASH_LATEST, .GEMINI_2_0_FLASH_EXPERIMENTAL,
   .GEMINI_2_0_FLASH, .GEMINI_2_0_PRO_EXPERIMENTAL]

/-- The `Gemini` LLM class; only the `model` field is relevant to the
properties below (the sampling parameters and session are untouched by
`supportToolCall`). -/
structure Gemini where
  model : GEMINI_MODEL
deriving DecidableEq, Repr

/-- Embedding of the `Gemini.supportToolCall` getter:
`SUPPORT_TOOL_CALL_MODELS.includes(this.model)`. -/
def supportToolCall (g : Gemini) : Bool :=
  SUPPORT_TOOL_CALL_MODELS.contains g.model

/-- **C10**. `supportToolCall` is true exactly for the thirteen models of
`SUPPORT_TOOL_CALL_MODELS`; in particular it is false for
`GEMINI_2_0_FLASH_THINKING_EXP`, `GEMINI_2_0_FLASH_LITE_PREVIEW` and
`GEMINI_2_0_FLASH_LITE` even though each has an entry in
`GEMINI_MODEL_INFO_MAP`. -/
theorem supportToolCall_models (g : Gemini) :
    (supportToolCall g = true ↔
      (g.model = .GEMINI_PRO ∨ g.model = .GEMINI_PRO_VISION ∨
       g.model = .GEMINI_PRO_1_5_PRO_PREVIEW ∨
       g.model = .GEMINI_PRO_1_5_FLASH_PREVIEW ∨
       g.model = .GEMINI_PRO_1_5 ∨ g.model = .GEMINI_PRO_1_5_FLASH ∨
       g.model = .GEMINI_PRO_LATEST ∨ g.model = .GEMINI_PRO_FLASH_LATEST ∨
       g.model = .GEMINI_PRO_1_5_LATEST ∨
       g.model = .GEMINI_PRO_1_5_FLASH_LATEST ∨
       g.model = .GEMINI_2_0_FLASH_EXPERIMENTAL ∨
       g.model = .GEMINI_2_0_FLASH ∨
       g.model = .GEMINI_2_0_PRO_EXPERIMENTAL)) ∧
    supportToolCall ⟨.GEMINI_2_0_FLASH_THINKING_EXP⟩ = false ∧
    supportToolCall ⟨.GEMINI_2_0_FLASH_LITE_PREVIEW⟩ = false ∧
    supportToolCall ⟨.GEMINI_2_0_FLASH_LITE⟩ = false ∧
    GEMINI_MODEL_INFO_MAP .GEMINI_2_0_FLASH_THINKING_EXP = ⟨32768⟩ ∧
    GEMINI_MODEL_INFO_MAP .GEMINI_2_0_FLASH_LITE_PREVIEW = ⟨1000000⟩ ∧
    GEMINI_MODEL_INFO_MAP .GEMINI_2_0_FLASH_LITE = ⟨1000000⟩ := by
  obtain ⟨m⟩ := g
  refine ⟨?_, by decide, by decide, by decide, rfl, rfl, rfl⟩
  cases m <;> decide

end LlamaTS
